import Mathlib

/-!
Verification of the persona repository's health route
(`src/app/api/health/route.ts`) and website-crawler worker route
(`src/app/api/workers/website-crawler/route.ts`) against the
natural-language specification.

JavaScript strings are modelled as `List Char` (ASCII behaviour of
`toLowerCase`/`trim`/regex character classes; the repository's inputs are
ASCII HTML/text).  Each definition is a direct translation of the
corresponding function in the source file; the database helpers
(`updateJobStatus`, `saveJobData` from `@/lib/db`) and the queue methods
(from `@/lib/queue`) are not part of the repository snapshot and are
modelled from the spec, as marked in their doc comments.
-/

namespace Persona

/-- JavaScript strings, modelled as lists of characters. -/
abbrev Str := List Char

/-- Whitespace as matched by the JS `\s` class / `String.prototype.trim`
(ASCII fragment: space, tab, LF, VT, FF, CR). -/
def jsIsWs (c : Char) : Bool :=
  c.toNat = 32 || c.toNat = 9 || c.toNat = 10 || c.toNat = 11 || c.toNat = 12 || c.toNat = 13

/-- `String.prototype.toLowerCase`, ASCII fragment: maps `A`–`Z` to `a`–`z`. -/
def jsToLower (c : Char) : Char :=
  if 65 ≤ c.toNat ∧ c.toNat ≤ 90 then Char.ofNat (c.toNat + 32) else c

/-- Lowercase an entire string. -/
def lowerStr (s : Str) : Str := s.map jsToLower

/-- `String.prototype.trim`: strip whitespace from both ends. -/
def jsTrim (s : Str) : Str :=
  ((s.dropWhile jsIsWs).reverse.dropWhile jsIsWs).reverse

/-- `String.prototype.includes`: `needle` occurs as a contiguous substring
of the second argument. -/
def containsSub (needle : Str) : Str → Bool
  | [] => needle.isEmpty
  | c :: t => needle.isPrefixOf (c :: t) || containsSub needle t

/-- Index of the first position of `hay` at which `pat` is a prefix of the
lowercased remainder (used for the case-insensitive regex scans). -/
def findSubCI (pat : Str) : Str → Option Nat
  | [] => if pat.isEmpty then some 0 else none
  | c :: t =>
    if pat.isPrefixOf (lowerStr (c :: t)) then some 0
    else (findSubCI pat t).map (· + 1)

/-- Word characters of the JS `\w` class / `\b` boundary: letters, digits
and underscore. -/
def isWordChar (c : Char) : Bool :=
  (97 ≤ c.toNat && c.toNat ≤ 122) || (65 ≤ c.toNat && c.toNat ≤ 90) ||
    (48 ≤ c.toNat && c.toNat ≤ 57) || c.toNat = 95

/-- `content.split(/[.!?]+/)`: split on maximal runs of sentence
delimiters.  `mode = true` while reading token characters (`cur` holds the
current token reversed); `mode = false` while skipping a delimiter run. -/
def splitGo (mode : Bool) (cur : Str) : Str → List Str
  | [] => if mode then [cur.reverse] else [[]]
  | c :: rest =>
    if c = '.' || c = '!' || c = '?' then
      if mode then cur.reverse :: splitGo false [] rest else splitGo false [] rest
    else
      if mode then splitGo true (c :: cur) rest else splitGo true [c] rest

/-- `content.split(/[.!?]+/)`. -/
def splitDelims (s : Str) : List Str := splitGo true [] s

/-- `s.split(',')`: split on every single comma. -/
def splitCommaGo (cur : Str) : Str → List Str
  | [] => [cur.reverse]
  | c :: rest =>
    if c = ',' then cur.reverse :: splitCommaGo [] rest
    else splitCommaGo (c :: cur) rest

/-- `s.split(',')`. -/
def splitComma (s : Str) : List Str := splitCommaGo [] s

/-- `[...new Set(xs)]`: remove duplicates keeping the first occurrence. -/
def dedupGo (seen : List Str) : List Str → List Str
  | [] => []
  | x :: xs => if x ∈ seen then dedupGo seen xs else x :: dedupGo (x :: seen) xs

/-- `[...new Set(xs)]`. -/
def dedupFirst (l : List Str) : List Str := dedupGo [] l

/-- One global-replace step machine for `text.replace(/pat/g, rep)` with a
literal pattern: `skip` counts pattern characters still to be consumed
after a match. -/
def replaceGo (pat rep : Str) : Nat → Str → Str
  | _, [] => []
  | Nat.succ n, _ :: rest => replaceGo pat rep n rest
  | 0, c :: rest =>
    if !pat.isEmpty && pat.isPrefixOf (c :: rest) then
      rep ++ replaceGo pat rep (pat.length - 1) rest
    else c :: replaceGo pat rep 0 rest

/-- `text.replace(/pat/g, rep)` for a literal (non-empty) pattern. -/
def replaceAllL (pat rep s : Str) : Str := replaceGo pat rep 0 s

/-- `text.replace(/\s+/g, ' ')`: collapse each whitespace run to one
space.  `afterWs` records whether the previous character was whitespace. -/
def collapseWsGo (afterWs : Bool) : Str → Str
  | [] => []
  | c :: rest =>
    if jsIsWs c then
      if afterWs then collapseWsGo true rest else ' ' :: collapseWsGo true rest
    else c :: collapseWsGo false rest

/-- `text.replace(/\s+/g, ' ')`. -/
def collapseWs (s : Str) : Str := collapseWsGo false s

/-- Length of the regex match `openPat[^>]*>[\s\S]*?closePat` (case
insensitive) at the head of `l`, if it matches there.  `[^>]*` is the
maximal run of non-`>` characters (the only run the regex can accept,
since every alternative must end at a literal `>`), and `[\s\S]*?` is
lazy, i.e. ends at the first occurrence of `closePat`. -/
def blockMatchLen (openPat closePat : Str) (l : Str) : Option Nat :=
  if openPat.isPrefixOf (lowerStr l) then
    let r0 := l.drop openPat.length
    let a := r0.takeWhile (fun c => c != '>')
    match r0.drop a.length with
    | [] => none
    | _ :: r2 =>
      match findSubCI closePat r2 with
      | none => none
      | some k => some (openPat.length + a.length + 1 + k + closePat.length)
  else none

/-- Step machine for `text.replace(/openPat[^>]*>[\s\S]*?closePat/gi, '')`:
`skip` counts matched characters still to be consumed. -/
def removeGo (openPat closePat : Str) : Nat → Str → Str
  | _, [] => []
  | Nat.succ n, _ :: rest => removeGo openPat closePat n rest
  | 0, c :: rest =>
    match blockMatchLen openPat closePat (c :: rest) with
    | some (Nat.succ m) => removeGo openPat closePat m rest
    | some 0 => c :: removeGo openPat closePat 0 rest
    | none => c :: removeGo openPat closePat 0 rest

/-- `text.replace(/openPat[^>]*>[\s\S]*?closePat/gi, '')` (a zero-length
match is impossible for the non-empty patterns used below). -/
def removeBlocks (openPat closePat s : Str) : Str := removeGo openPat closePat 0 s

/-- Index of the first `>` in a string. -/
def findGt : Str → Option Nat
  | [] => none
  | c :: t => if c = '>' then some 0 else (findGt t).map (· + 1)

/-- Step machine for `text.replace(/<[^>]*>/g, ' ')`. -/
def stripGo : Nat → Str → Str
  | _, [] => []
  | Nat.succ n, _ :: rest => stripGo n rest
  | 0, c :: rest =>
    if c = '<' then
      match findGt rest with
      | some k => ' ' :: stripGo (k + 1) rest
      | none => c :: stripGo 0 rest
    else c :: stripGo 0 rest

/-- `text.replace(/<[^>]*>/g, ' ')`. -/
def stripTags (s : Str) : Str := stripGo 0 s

/-- `extractTextFromHTML` from the website-crawler route: remove script
and style blocks, strip the remaining tags, collapse whitespace, trim,
then decode the six HTML entities. -/
def extractTextFromHTML (html : Str) : Str :=
  let t1 := removeBlocks ( "<script".toList) ( "</script>".toList) html
  let t2 := removeBlocks ( "<style".toList) ( "</style>".toList) t1
  let t3 := stripTags t2
  let t4 := jsTrim (collapseWs t3)
  let t5 := replaceAllL ( "&nbsp;".toList) ( " ".toList) t4
  let t6 := replaceAllL ( "&amp;".toList) ( "&".toList) t5
  let t7 := replaceAllL ( "&lt;".toList) ( "<".toList) t6
  let t8 := replaceAllL ( "&gt;".toList) ( ">".toList) t7
  let t9 := replaceAllL ( "&quot;".toList) ( "\"".toList) t8
  replaceAllL ( "&#39;".toList) ( "'".toList) t9

/-- The match of `/<title[^>]*>([^<]+)<\/title>/i` at the head of `l`:
returns the captured group (`[^<]+`, the maximal non-empty run of
non-`<` characters, which must be followed by the closing tag). -/
def tryTitleAt (l : Str) : Option Str :=
  if ( "<title".toList).isPrefixOf (lowerStr l) then
    let r0 := l.drop 6
    let a := r0.takeWhile (fun c => c != '>')
    match r0.drop a.length with
    | [] => none
    | _ :: r2 =>
      let cap := r2.takeWhile (fun c => c != '<')
      if cap.isEmpty then none
      else if ( "</title>".toList).isPrefixOf (lowerStr (r2.drop cap.length)) then some cap
      else none
  else none

/-- First match of the title regex anywhere in the string. -/
def findTitle : Str → Option Str
  | [] => none
  | c :: t =>
    match tryTitleAt (c :: t) with
    | some cap => some cap
    | none => findTitle t

/-- `extractTitle` from the website-crawler route. -/
def extractTitle (html : Str) : Str :=
  match findTitle html with
  | some cap => jsTrim cap
  | none => "Unknown Title".toList

/-- `extractSentencesWithWords` from the website-crawler route: split into
sentences, keep those whose lowercase form contains a target word and
whose trimmed length is in (30, 200), push the trimmed sentence, and
deduplicate via `Set`. -/
def extractSentencesWithWords (content : Str) (targetWords : List Str) : List Str :=
  let sentences := (splitDelims content).filter (fun s => 20 < (jsTrim s).length)
  let matching := (sentences.filter (fun s =>
    targetWords.any (fun w => containsSub (lowerStr w) (lowerStr s)) &&
    decide (30 < (jsTrim s).length) && decide ((jsTrim s).length < 200))).map jsTrim
  dedupFirst matching

/-- The alternation of `extractImportantWords`' product-term regex, in
source order. -/
def productTerms : List Str :=
  [ "grounding", "earthing", "conductive", "organic", "cotton", "silver",
    "copper", "sheet", "mat", "pad", "wellness", "sleep", "health",
    "natural", "therapy", "healing" ].map String.toList

/-- First alternative of `productTerms` matching case-insensitively at the
head of `l` with a word boundary after it; returns the match length. -/
def termMatchGo (l : Str) : List Str → Option Nat
  | [] => none
  | t :: ts =>
    let boundaryOk : Bool :=
      match (l.drop t.length).head? with
      | some c => !isWordChar c
      | none => true
    if t.isPrefixOf (lowerStr l) && boundaryOk then some t.length
    else termMatchGo l ts

/-- Step machine for `content.match(/\b(…)\b/gi)`: `skip` counts matched
characters still to be consumed, `prevW` whether the previous character
was a word character (for the leading `\b`). -/
def scanGo : Nat → Bool → Str → List Str
  | Nat.succ n, b, _ :: rest => scanGo n b rest
  | _, _, [] => []
  | 0, prevW, c :: rest =>
    if prevW then scanGo 0 (isWordChar c) rest
    else
      match termMatchGo (c :: rest) productTerms with
      | some (Nat.succ n) => (c :: rest).take (n + 1) :: scanGo n true rest
      | some 0 => scanGo 0 (isWordChar c) rest
      | none => scanGo 0 (isWordChar c) rest

/-- `extractImportantWords` from the website-crawler route (the
`targetKeywords` parameter is unused in the source as well). -/
def extractImportantWords (content : Str) (targetKeywords : List Str) : List Str :=
  let found := scanGo 0 false content
  let uniqueTerms := dedupFirst (found.map lowerStr)
  uniqueTerms.take 10

/-- Result record of `analyzeWebsiteContent`. -/
structure Analysis where
  valuePropositions : List Str
  features : List Str
  benefits : List Str
  keywords : List Str
deriving DecidableEq

/-- The value words of `analyzeWebsiteContent`. -/
def valueWords : List Str :=
  [ "best", "premium", "quality", "effective", "proven", "guaranteed",
    "certified", "natural", "safe", "scientifically", "clinically" ].map String.toList

/-- The feature words of `analyzeWebsiteContent`. -/
def featureWords : List Str :=
  [ "made", "includes", "features", "comes with", "designed", "built",
    "contains", "material", "size", "dimensions" ].map String.toList

/-- The benefit words of `analyzeWebsiteContent`. -/
def benefitWords : List Str :=
  [ "helps", "improves", "reduces", "increases", "better", "relief",
    "sleep", "health", "wellness", "benefits", "feel" ].map String.toList

/-- `analyzeWebsiteContent` from the website-crawler route. -/
def analyzeWebsiteContent (content : Str) (targetKeywords : List Str) : Analysis :=
  let contentLower := lowerStr content
  let valuePropositions := (extractSentencesWithWords content valueWords).take 8
  let features := (extractSentencesWithWords content featureWords).take 10
  let benefits := (extractSentencesWithWords content benefitWords).take 10
  let foundKeywords := targetKeywords.filter (fun k => containsSub (lowerStr k) contentLower)
  let additionalKeywords := extractImportantWords content targetKeywords
  { valuePropositions := valuePropositions, features := features,
    benefits := benefits,
    keywords := (foundKeywords ++ additionalKeywords).take 15 }

/-- The `metadata` field of a `WebsiteData` record. -/
structure CrawlMetadata where
  timestamp : Str
  contentLength : Nat
  extractionMethod : Str
deriving DecidableEq

/-- The `WebsiteData` interface of the website-crawler route. -/
structure WebsiteData where
  url : Str
  title : Str
  content : Str
  valuePropositions : List Str
  features : List Str
  benefits : List Str
  keywords : List Str
  metadata : CrawlMetadata
deriving DecidableEq

/-- Outcome of `fetch(websiteUrl, …)` inside `crawlWebsiteDirectly`:
the call throws (network error / timeout — any exception inside the `try`
block), returns a non-ok HTTP status, or returns an HTML body. -/
inductive FetchOutcome where
  | throws
  | notOk (status : Nat)
  | ok (html : Str)
deriving DecidableEq

/-- `crawlWebsiteDirectly` from the website-crawler route.  The fetch
outcome is an explicit input; `now` is the value of
`new Date().toISOString()` during the run.  A thrown exception is caught
by the function's own `try`/`catch` and a failed fetch is detected via
`response.ok`; both produce `null` (here `none`). -/
def crawlWebsiteDirectly (fo : FetchOutcome) (websiteUrl : Str)
    (targetKeywords : List Str) (now : Str) : Option WebsiteData :=
  match fo with
  | .throws => none
  | .notOk _ => none
  | .ok html =>
    let textContent := extractTextFromHTML html
    let title := extractTitle html
    let analysis := analyzeWebsiteContent textContent targetKeywords
    some
      { url := websiteUrl, title := title, content := textContent.take 5000,
        valuePropositions := analysis.valuePropositions,
        features := analysis.features, benefits := analysis.benefits,
        keywords := analysis.keywords,
        metadata :=
          { timestamp := now, contentLength := textContent.length,
            extractionMethod := "direct_fetch".toList } }

/-- Job status values from the spec data model (§3). -/
inductive JobStatus where
  | pending
  | processing
  | completed
  | failed
deriving DecidableEq

/-- Rank of a status along the forward chain
`pending → processing → (completed | failed)`. -/
def statusRank : JobStatus → Nat
  | .pending => 0
  | .processing => 1
  | .completed => 2
  | .failed => 2

/-- A `JobData` record written by the worker: either the error record of
the failed-crawl branch or a full `WebsiteData` record. -/
inductive JobData where
  | errorRecord (url : Str) (errMsg : Str) (timestamp : Str)
  | websiteRecord (w : WebsiteData)
deriving DecidableEq

/-- Insert-or-overwrite into an association list. -/
def insertA {β : Type} (m : List (Str × β)) (k : Str) (v : β) : List (Str × β) :=
  (k, v) :: m.filter (fun p => p.1 ≠ k)

/-- Lookup in an association list. -/
def lookupA {β : Type} (m : List (Str × β)) (k : Str) : Option β :=
  (m.find? (fun p => p.1 = k)).map (·.2)

/-- Persistent state visible to the worker route: the Job table's status
column and the JobData table, keyed by `(job_id, source_name)` (flattened
to a single key `job_id ++ '/' ++ source_name` here; the worker only ever
uses the source name `website`). -/
structure Store where
  jobs : List (Str × JobStatus)
  data : List (Str × JobData)
deriving DecidableEq

/-- Key of the JobData table for `(jobId, source)`. -/
def dataKey (jobId source : Str) : Str := jobId ++ [ '/' ] ++ source

/-- Modelled from the spec: `updateJobStatus` of `@/lib/db` is not in the
repository snapshot.  Per §3 the Job record has a `status` column and the
route's call `updateJobStatus(jobId, 'processing')` sets it; the spec
describes no guard, so this writes the given status unconditionally. -/
def updateJobStatus (st : Store) (jobId : Str) (s : JobStatus) : Store :=
  { st with jobs := insertA st.jobs jobId s }

/-- Modelled from the spec: `saveJobData` of `@/lib/db` is not in the
repository snapshot.  Per §3 a `JobDataRecord` is keyed by
`(job_id, source_name)` with overwrite semantics — "a retried task
overwrites the prior record for the same key (last successful write
wins — there is no merge)". -/
def saveJobData (st : Store) (jobId source : Str) (d : JobData) : Store :=
  { st with data := insertA st.data (dataKey jobId source) d }

/-- The `targetKeywords` field: a string, an array, or absent. -/
inductive KeywordsField where
  | str (s : Str)
  | arr (l : List Str)
  | absent
deriving DecidableEq

/-- The parsed JSON body of a worker request: each field is absent or a
string (`targetKeywords` may also be an array of strings, as handled by
the route's `typeof` check). -/
structure WorkerBody where
  jobId : Option Str
  websiteUrl : Option Str
  targetKeywords : KeywordsField
deriving DecidableEq

/-- `typeof targetKeywords === 'string' ? targetKeywords.split(',').map(k => k.trim()) : targetKeywords || []`. -/
def parseKeywords : KeywordsField → List Str
  | .str s => (splitComma s).map jsTrim
  | .arr l => l
  | .absent => []

/-- Outcome of `request.json()`: it throws (malformed body) or yields the
parsed fields. -/
inductive ReqOutcome where
  | parseError (msg : Str)
  | parsed (b : WorkerBody)
deriving DecidableEq

/-- Responses the worker `POST` handler can produce. -/
inductive WorkerResp where
  | missingFields
  | crawlFailed (url : Str)
  | crawlOk (url title : Str) (contentLength vps feats bens kws : Nat) (preview : Str)
  | serverError (details : Str)
deriving DecidableEq

/-- HTTP status of a worker response (`NextResponse.json` defaults to
200). -/
def workerStatusOf : WorkerResp → Nat
  | .missingFields => 400
  | .crawlFailed _ => 200
  | .crawlOk .. => 200
  | .serverError _ => 500

/-- The `success` field of a worker response body, when present. -/
def workerSuccessOf : WorkerResp → Option Bool
  | .missingFields => none
  | .crawlFailed _ => some true
  | .crawlOk .. => some true
  | .serverError _ => none

/-- JS truthiness of an optional string field (`!jobId` is true when the
field is absent or the empty string). -/
def truthyStr : Option Str → Bool
  | none => false
  | some s => !s.isEmpty

/-- The literal `'website'` source name. -/
def websiteSource : Str := "website".toList

/-- The literal error message of the failed-crawl JobData record. -/
def crawlFailMsg : Str := "Failed to crawl website".toList

/-- The `POST` handler of the website-crawler route, as a function of the
request-parse outcome, the fetch outcome, the clock reading `now` and the
current store.  Returns the response and the new store. -/
def websiteCrawlerPOST (st : Store) (req : ReqOutcome) (fo : FetchOutcome)
    (now : Str) : WorkerResp × Store :=
  match req with
  | .parseError msg => (.serverError msg, st)
  | .parsed b =>
    if !truthyStr b.jobId || !truthyStr b.websiteUrl then
      (.missingFields, st)
    else
      match b.jobId, b.websiteUrl with
      | some jobId, some url =>
        let st1 := updateJobStatus st jobId .processing
        let keywords := parseKeywords b.targetKeywords
        match crawlWebsiteDirectly fo url keywords now with
        | none =>
          let st2 := saveJobData st1 jobId websiteSource (.errorRecord url crawlFailMsg now)
          (.crawlFailed url, st2)
        | some wd =>
          let st2 := saveJobData st1 jobId websiteSource (.websiteRecord wd)
          (.crawlOk url wd.title wd.content.length wd.valuePropositions.length
            wd.features.length wd.benefits.length wd.keywords.length
            (wd.content.take 200 ++ "...".toList), st2)
      | _, _ => (.missingFields, st)

/-- Outcome of a health probe that returns an elapsed time on success
(`sql` check, `kv.ping` check): the awaited call either succeeds or
throws with a message. -/
inductive ProbeResult where
  | ok (elapsedMs : Nat)
  | err (msg : Str)
deriving DecidableEq

/-- Modelled from the spec: `Queue.getQueueStats` of `@/lib/queue` is not
in the repository snapshot; per §4.2 `Stats()` returns counts by
visibility state. -/
structure QueueStats where
  pending : Nat
  leased : Nat
  total : Nat
deriving DecidableEq

/-- Outcome of the queue probe: `Queue.getQueueStats()` returns stats or
throws. -/
inductive QueueProbe where
  | ok (stats : QueueStats)
  | err (msg : Str)
deriving DecidableEq

/-- Per-check status in the health document (every branch of the route
overwrites the initial `'unknown'` with one of these). -/
inductive HStatus where
  | healthy
  | unhealthy
deriving DecidableEq

/-- One entry of the health document's `checks` object. -/
structure HealthEntry where
  status : HStatus
  message : Str
deriving DecidableEq

/-- The composite tri-state status. -/
inductive Composite where
  | healthy
  | degraded
  | unhealthy
deriving DecidableEq

/-- The composite health document returned by `GET /health`. -/
structure HealthResp where
  timestamp : Str
  status : Composite
  database : HealthEntry
  redis : HealthEntry
  queue : HealthEntry
  environment : HealthEntry
  summaryHealthy : Nat
  summaryTotal : Nat
  statusCode : Nat
deriving DecidableEq

/-- The required environment variables checked by `GET /health`. -/
def requiredEnvVars : List Str :=
  [ "POSTGRES_URL", "KV_URL", "OPENAI_API_KEY", "SCRAPEOWL_API_KEY",
    "BLOB_READ_WRITE_TOKEN" ].map String.toList

/-- The `GET` handler of the health route.  Each of the three fallible
probes is an explicit outcome input (its `try`/`catch` converts a throw
into an `unhealthy` entry); `env` is `process.env`, and a variable is
missing when it is unset or the empty string (JS falsiness). -/
def healthGET (db redis : ProbeResult) (queue : QueueProbe)
    (env : Str → Option Str) (now : Str) : HealthResp :=
  let dbE : HealthEntry :=
    match db with
    | .ok _ => { status := .healthy, message := "Database connection successful".toList }
    | .err m => { status := .unhealthy, message := "Database error: ".toList ++ m }
  let redisE : HealthEntry :=
    match redis with
    | .ok _ => { status := .healthy, message := "Redis connection successful".toList }
    | .err m => { status := .unhealthy, message := "Redis error: ".toList ++ m }
  let queueE : HealthEntry :=
    match queue with
    | .ok _ => { status := .healthy, message := "Queue system operational".toList }
    | .err m => { status := .unhealthy, message := "Queue error: ".toList ++ m }
  let missing := requiredEnvVars.filter (fun v =>
    match env v with
    | none => true
    | some s => s.isEmpty)
  let envE : HealthEntry :=
    if missing.isEmpty then
      { status := .healthy, message := "All required environment variables present".toList }
    else
      { status := .unhealthy,
        message := "Missing environment variables: ".toList ++ List.intercalate ( ", ".toList) missing }
  let healthyCount := ([dbE, redisE, queueE, envE].filter (fun e => e.status = HStatus.healthy)).length
  let overall :=
    if healthyCount = 4 then Composite.healthy
    else if 0 < healthyCount then Composite.degraded
    else Composite.unhealthy
  let code :=
    match overall with
    | .healthy => 200
    | .degraded => 207
    | .unhealthy => 503
  { timestamp := now, status := overall, database := dbE, redis := redisE,
    queue := queueE, environment := envE, summaryHealthy := healthyCount,
    summaryTotal := 4, statusCode := code }

/-- Modelled from the spec: the outcome of `Queue.processRetryableJobs` or
`Queue.triggerProcessing` of `@/lib/queue` (not in the repository
snapshot; §4.4's `SweepStuckJobs` / `TriggerProcessing`), each an opaque
awaited operation that completes or throws. -/
inductive MaintOutcome where
  | ok
  | err (msg : Str)
deriving DecidableEq

/-- The two maintenance operations, in the order the handler awaits
them. -/
inductive MaintAction where
  | retrySweep
  | triggerProc
deriving DecidableEq

/-- Responses of the health route's `POST` handler. -/
inductive MaintResp where
  | success (timestamp : Str)
  | failure (details : Str) (timestamp : Str)
deriving DecidableEq

/-- HTTP status of a maintenance response. -/
def maintStatusOf : MaintResp → Nat
  | .success _ => 200
  | .failure _ _ => 500

/-- The `success` field of a maintenance response body, when present. -/
def maintSuccessOf : MaintResp → Option Bool
  | .success _ => some true
  | .failure _ _ => none

/-- The `POST` handler of the health route: awaits the retry sweep, then
the processing trigger; a throw from either lands in the `catch` block.
Also returns the list of operations that were actually started. -/
def healthPOST (sweep trigger : MaintOutcome) (now : Str) :
    MaintResp × List MaintAction :=
  match sweep with
  | .err m => (.failure m now, [ .retrySweep ])
  | .ok =>
    match trigger with
    | .err m => (.failure m now, [ .retrySweep, .triggerProc ])
    | .ok => (.success now, [ .retrySweep, .triggerProc ])

/-- A target word is boundary-clean when it does not start or end with a
whitespace character (the amendment hypothesis for C10: such a word's
occurrence cannot be destroyed by `trim`). -/
def goodWordB (w : Str) : Bool :=
  (match w.head? with
   | some c => !jsIsWs c
   | none => true) &&
  (match w.getLast? with
   | some c => !jsIsWs c
   | none => true)

/-! ### Helper lemmas -/

lemma char_toNat_ofNat (n : Nat) (h : n.isValidChar) : (Char.ofNat n).toNat = n := by
  unfold Char.ofNat
  rw [dif_pos h]
  unfold Char.ofNatAux Char.toNat
  simp [UInt32.toNat, BitVec.toNat_ofNatLt]

/-- ASCII lowercasing does not change whether a character is whitespace. -/
lemma jsIsWs_toLower (c : Char) : jsIsWs (jsToLower c) = jsIsWs c := by
  unfold jsToLower
  by_cases h : 65 ≤ c.toNat ∧ c.toNat ≤ 90
  · rw [if_pos h]
    have hv : (c.toNat + 32).isValidChar := Or.inl (by omega)
    have ht := char_toNat_ofNat (c.toNat + 32) hv
    have hA : jsIsWs (Char.ofNat (c.toNat + 32)) = false := by
      simp only [jsIsWs, ht, Bool.or_eq_false_iff, decide_eq_false_iff_not]
      omega
    have hB : jsIsWs c = false := by
      simp only [jsIsWs, Bool.or_eq_false_iff, decide_eq_false_iff_not]
      omega
    rw [hA, hB]
  · rw [if_neg h]

lemma dropWhile_lowerStr (s : Str) :
    (lowerStr s).dropWhile jsIsWs = lowerStr (s.dropWhile jsIsWs) := by
  unfold lowerStr
  rw [List.dropWhile_map]
  have hp : (jsIsWs ∘ jsToLower) = jsIsWs := funext fun c => jsIsWs_toLower c
  rw [hp]

/-- Trimming commutes with lowercasing. -/
lemma jsTrim_lowerStr (s : Str) : jsTrim (lowerStr s) = lowerStr (jsTrim s) := by
  unfold jsTrim
  rw [dropWhile_lowerStr]
  have h1 : (lowerStr (s.dropWhile jsIsWs)).reverse = lowerStr ((s.dropWhile jsIsWs).reverse) := by
    simp [lowerStr]
  rw [h1, dropWhile_lowerStr]
  simp [lowerStr]

/-- `containsSub` decides the substring (infix) relation. -/
lemma containsSub_iff (needle hay : Str) :
    containsSub needle hay = true ↔ needle <:+: hay := by
  induction hay with
  | nil =>
    simp only [containsSub, List.isEmpty_iff, List.infix_nil]
  | cons c t ih =>
    simp only [containsSub, Bool.or_eq_true, ih, List.infix_cons_iff,
      List.isPrefixOf_iff_prefix]

/-- An infix whose first element does not satisfy `p` survives
`dropWhile p`. -/
lemma infix_dropWhile (p : Char → Bool) (needle hay : Str)
    (hh : ∀ c, needle.head? = some c → p c = false) (h : needle <:+: hay) :
    needle <:+: hay.dropWhile p := by
  obtain ⟨a, b, rfl⟩ := h
  induction a with
  | nil =>
    cases needle with
    | nil => exact List.nil_infix
    | cons n0 ns =>
      simp only [List.nil_append, List.cons_append, List.dropWhile_cons, hh n0 rfl]
      exact ⟨[], b, by simp⟩
  | cons c a' ih =>
    simp only [List.cons_append]
    rw [List.dropWhile_cons]
    by_cases hc : p c = true
    · rw [if_pos hc]
      exact ih
    · rw [if_neg hc]
      exact List.infix_cons ⟨a', b, rfl⟩

/-- An infix whose boundary characters are not whitespace survives
trimming. -/
lemma infix_jsTrim (needle hay : Str)
    (h0 : ∀ c, needle.head? = some c → jsIsWs c = false)
    (h1 : ∀ c, needle.getLast? = some c → jsIsWs c = false)
    (h : needle <:+: hay) : needle <:+: jsTrim hay := by
  unfold jsTrim
  have s1 : needle <:+: hay.dropWhile jsIsWs := infix_dropWhile _ _ _ h0 h
  have s2 : needle.reverse <:+: (hay.dropWhile jsIsWs).reverse :=
    List.reverse_infix.mpr s1
  have s3 : needle.reverse <:+: ((hay.dropWhile jsIsWs).reverse).dropWhile jsIsWs := by
    refine infix_dropWhile _ _ _ ?_ s2
    intro c hc
    rw [List.head?_reverse] at hc
    exact h1 c hc
  have s4 : needle.reverse <:+:
      ((((hay.dropWhile jsIsWs).reverse).dropWhile jsIsWs).reverse).reverse := by
    rwa [List.reverse_reverse]
  exact List.reverse_infix.mp s4

lemma mem_dedupGo : ∀ (l seen : List Str) (x : Str),
    x ∈ dedupGo seen l → x ∈ l ∧ x ∉ seen := by
  intro l
  induction l with
  | nil =>
    intro seen x h
    simp [dedupGo] at h
  | cons y ys ih =>
    intro seen x h
    simp only [dedupGo] at h
    by_cases hy : y ∈ seen
    · rw [if_pos hy] at h
      obtain ⟨h1, h2⟩ := ih seen x h
      exact ⟨List.mem_cons_of_mem _ h1, h2⟩
    · rw [if_neg hy] at h
      rcases List.mem_cons.mp h with rfl | h'
      · exact ⟨List.mem_cons_self _ _, hy⟩
      · obtain ⟨h1, h2⟩ := ih (y :: seen) x h'
        exact ⟨List.mem_cons_of_mem _ h1, fun hx => h2 (List.mem_cons_of_mem _ hx)⟩

lemma head?_lowerStr (w : Str) : (lowerStr w).head? = w.head?.map jsToLower := by
  simp [lowerStr]

lemma getLast?_lowerStr (w : Str) : (lowerStr w).getLast? = w.getLast?.map jsToLower := by
  simp [lowerStr]

/-- A boundary-clean word stays boundary-clean after lowercasing
(first character). -/
lemma goodWordB_head (w : Str) (hg : goodWordB w = true) :
    ∀ c, (lowerStr w).head? = some c → jsIsWs c = false := by
  intro c hc
  rw [head?_lowerStr] at hc
  cases hw0 : w.head? with
  | none => rw [hw0] at hc; simp at hc
  | some c0 =>
    rw [hw0] at hc
    simp only [Option.map_some'] at hc
    obtain rfl : jsToLower c0 = c := by injection hc
    rw [jsIsWs_toLower]
    simp only [goodWordB, Bool.and_eq_true, hw0] at hg
    simpa using hg.1

/-- A boundary-clean word stays boundary-clean after lowercasing
(last character). -/
lemma goodWordB_getLast (w : Str) (hg : goodWordB w = true) :
    ∀ c, (lowerStr w).getLast? = some c → jsIsWs c = false := by
  intro c hc
  rw [getLast?_lowerStr] at hc
  cases hw0 : w.getLast? with
  | none => rw [hw0] at hc; simp at hc
  | some c0 =>
    rw [hw0] at hc
    simp only [Option.map_some'] at hc
    obtain rfl : jsToLower c0 = c := by injection hc
    rw [jsIsWs_toLower]
    simp only [goodWordB, Bool.and_eq_true, hw0] at hg
    simpa using hg.2

lemma nodup_dedupGo : ∀ (l seen : List Str), (dedupGo seen l).Nodup := by
  intro l
  induction l with
  | nil =>
    intro seen
    simp [dedupGo]
  | cons y ys ih =>
    intro seen
    simp only [dedupGo]
    by_cases hy : y ∈ seen
    · rw [if_pos hy]
      exact ih seen
    · rw [if_neg hy]
      refine List.nodup_cons.mpr ⟨?_, ih (y :: seen)⟩
      intro hmem
      exact (mem_dedupGo ys (y :: seen) y hmem).2 (List.mem_cons_self _ _)

/-- Overwrite-overwrite on the same key collapses to the last write. -/
lemma insertA_insertA {β : Type} (m : List (Str × β)) (k : Str) (v v' : β) :
    insertA (insertA m k v) k v' = insertA m k v' := by
  unfold insertA
  simp [List.filter_filter]

/-! ### Claim theorems -/

/-- C1: the composite status of `GET /health` is `healthy` iff all four
probe entries are healthy, `degraded` iff at least one but not all are
healthy, `unhealthy` iff none is healthy, and the HTTP status code is
derived from that tri-state as 200 / 207 / 503. -/
theorem healthGET_composite_reduction (db redis : ProbeResult) (queue : QueueProbe)
    (env : Str → Option Str) (now : Str) :
    ((healthGET db redis queue env now).status = Composite.healthy ↔
      ((healthGET db redis queue env now).database.status = HStatus.healthy ∧
       (healthGET db redis queue env now).redis.status = HStatus.healthy ∧
       (healthGET db redis queue env now).queue.status = HStatus.healthy ∧
       (healthGET db redis queue env now).environment.status = HStatus.healthy)) ∧
    ((healthGET db redis queue env now).status = Composite.degraded ↔
      (((healthGET db redis queue env now).database.status = HStatus.healthy ∨
        (healthGET db redis queue env now).redis.status = HStatus.healthy ∨
        (healthGET db redis queue env now).queue.status = HStatus.healthy ∨
        (healthGET db redis queue env now).environment.status = HStatus.healthy) ∧
       ¬((healthGET db redis queue env now).database.status = HStatus.healthy ∧
         (healthGET db redis queue env now).redis.status = HStatus.healthy ∧
         (healthGET db redis queue env now).queue.status = HStatus.healthy ∧
         (healthGET db redis queue env now).environment.status = HStatus.healthy))) ∧
    ((healthGET db redis queue env now).status = Composite.unhealthy ↔
      ((healthGET db redis queue env now).database.status ≠ HStatus.healthy ∧
       (healthGET db redis queue env now).redis.status ≠ HStatus.healthy ∧
       (healthGET db redis queue env now).queue.status ≠ HStatus.healthy ∧
       (healthGET db redis queue env now).environment.status ≠ HStatus.healthy)) ∧
    (healthGET db redis queue env now).statusCode =
      (if (healthGET db redis queue env now).status = Composite.healthy then 200
       else if (healthGET db redis queue env now).status = Composite.degraded then 207
       else 503) := by
  rcases Bool.eq_false_or_eq_true
      ((requiredEnvVars.filter (fun v =>
        match env v with
        | none => true
        | some s => s.isEmpty)).isEmpty) with hE | hE <;>
    cases db <;> cases redis <;> cases queue <;>
    simp [healthGET, hE]

/-- C5: in `GET /health` each probe's entry depends only on that probe's
own outcome (a throwing probe cannot change, abort or suppress any other
entry), a throwing probe is recorded as `unhealthy` with its error
message, and the returned document always carries all four entries
(summary total 4, healthy count at most 4). -/
theorem healthGET_probe_isolation (dbA dbB redisA redisB : ProbeResult)
    (queueA queueB : QueueProbe) (envA envB : Str → Option Str)
    (nowA nowB m : Str) :
    ((healthGET dbA redisA queueA envA nowA).database =
      (healthGET dbA redisB queueB envB nowB).database) ∧
    ((healthGET dbA redisA queueA envA nowA).redis =
      (healthGET dbB redisA queueB envB nowB).redis) ∧
    ((healthGET dbA redisA queueA envA nowA).queue =
      (healthGET dbB redisB queueA envB nowB).queue) ∧
    ((healthGET dbA redisA queueA envA nowA).environment =
      (healthGET dbB redisB queueB envA nowB).environment) ∧
    ((healthGET (.err m) redisA queueA envA nowA).database =
      { status := .unhealthy, message := "Database error: ".toList ++ m }) ∧
    ((healthGET dbA (.err m) queueA envA nowA).redis =
      { status := .unhealthy, message := "Redis error: ".toList ++ m }) ∧
    ((healthGET dbA redisA (.err m) envA nowA).queue =
      { status := .unhealthy, message := "Queue error: ".toList ++ m }) ∧
    ((healthGET dbA redisA queueA envA nowA).summaryTotal = 4) ∧
    ((healthGET dbA redisA queueA envA nowA).summaryHealthy ≤ 4) := by
  refine ⟨?_, ?_, ?_, ?_, ?_, ?_, ?_, rfl, ?_⟩
  · cases dbA <;> simp [healthGET]
  · cases redisA <;> simp [healthGET]
  · cases queueA <;> simp [healthGET]
  · simp [healthGET]
  · simp [healthGET]
  · cases dbA <;> simp [healthGET]
  · cases dbA <;> cases redisA <;> simp [healthGET]
  · exact List.length_filter_le _ _

/-- C7: `POST /health` runs the retry sweep and then the processing
trigger; when both succeed it answers with `success: true` and a
timestamp (HTTP 200), and when either throws it answers HTTP 500
carrying that error's detail. -/
theorem healthPOST_sweep_then_trigger (now m : Str) (t : MaintOutcome) :
    healthPOST .ok .ok now = (.success now, [ .retrySweep, .triggerProc ]) ∧
    maintStatusOf (MaintResp.success now) = 200 ∧
    maintSuccessOf (MaintResp.success now) = some true ∧
    healthPOST (.err m) t now = (.failure m now, [ .retrySweep ]) ∧
    healthPOST .ok (.err m) now = (.failure m now, [ .retrySweep, .triggerProc ]) ∧
    maintStatusOf (MaintResp.failure m now) = 500 :=
  ⟨rfl, rfl, rfl, rfl, rfl, rfl⟩

/-- C2 (failing-input evaluation): running the worker `POST` on a job
whose status is already `completed` rewinds that job's status to
`processing` — a backward transition along
`pending → processing → (completed | failed)`, contradicting the
forward-only property. -/
theorem websiteCrawler_rewinds_completed_job :
    lookupA (Store.mk [( "j1".toList, JobStatus.completed)] []).jobs ( "j1".toList) =
      some JobStatus.completed ∧
    lookupA ((websiteCrawlerPOST (Store.mk [( "j1".toList, JobStatus.completed)] [])
        (.parsed (WorkerBody.mk (some ( "j1".toList))
          (some ( "https://example.com".toList)) .absent))
        .throws ( "t".toList)).2).jobs ( "j1".toList) = some JobStatus.processing ∧
    statusRank JobStatus.processing < statusRank JobStatus.completed := by
  refine ⟨?_, ?_, ?_⟩ <;> decide

/-- C3: an error during fetching or extraction never escapes
`crawlWebsiteDirectly` (a thrown fetch and a non-ok response both yield
`null`), and on such a failure the worker records an error JobData record
under the `website` source and still answers HTTP 200 with
`success: true`. -/
theorem websiteCrawler_fetch_error_contained (st : Store) (jid url : Str)
    (kw : KeywordsField) (now : Str) (fo : FetchOutcome) (status : Nat)
    (hj : jid ≠ []) (hu : url ≠ [])
    (hfo : crawlWebsiteDirectly fo url (parseKeywords kw) now = none) :
    crawlWebsiteDirectly FetchOutcome.throws url (parseKeywords kw) now = none ∧
    crawlWebsiteDirectly (FetchOutcome.notOk status) url (parseKeywords kw) now = none ∧
    workerStatusOf (websiteCrawlerPOST st (.parsed ⟨some jid, some url, kw⟩) fo now).1 = 200 ∧
    workerSuccessOf (websiteCrawlerPOST st (.parsed ⟨some jid, some url, kw⟩) fo now).1 = some true ∧
    lookupA ((websiteCrawlerPOST st (.parsed ⟨some jid, some url, kw⟩) fo now).2).data
      (dataKey jid websiteSource) = some (JobData.errorRecord url crawlFailMsg now) := by
  refine ⟨rfl, rfl, ?_, ?_, ?_⟩ <;>
    simp [websiteCrawlerPOST, truthyStr, List.isEmpty_iff, hj, hu, hfo,
      updateJobStatus, saveJobData, lookupA, insertA, workerStatusOf, workerSuccessOf]

/-- C6: a worker request whose body lacks `jobId` or lacks `websiteUrl`
is answered with HTTP 400 and leaves the store untouched — neither
`updateJobStatus` nor `saveJobData` runs. -/
theorem websiteCrawler_validation_rejects (st : Store) (b : WorkerBody)
    (fo : FetchOutcome) (now : Str)
    (h : b.jobId = none ∨ b.websiteUrl = none) :
    websiteCrawlerPOST st (.parsed b) fo now = (WorkerResp.missingFields, st) ∧
    workerStatusOf WorkerResp.missingFields = 400 := by
  obtain ⟨j, u, kw⟩ := b
  rcases h with h | h <;> subst h <;>
    exact ⟨by simp [websiteCrawlerPOST, truthyStr], rfl⟩

/-- C4: re-running the worker with the same payload overwrites rather
than accumulates: the response and store after a second run starting from
the first run's store equal those of the second run alone — last write
wins for the `(jobId, website)` record, with no merge. -/
theorem websiteCrawler_rerun_overwrites (st : Store) (req : ReqOutcome)
    (fo1 fo2 : FetchOutcome) (now1 now2 : Str) :
    websiteCrawlerPOST (websiteCrawlerPOST st req fo1 now1).2 req fo2 now2 =
      websiteCrawlerPOST st req fo2 now2 := by
  cases req with
  | parseError m => rfl
  | parsed b =>
    obtain ⟨jid?, url?, kw⟩ := b
    cases jid? with
    | none => rfl
    | some jid =>
      cases url? with
      | none => simp [websiteCrawlerPOST, truthyStr]
      | some url =>
        cases hje : jid.isEmpty with
        | true => simp [websiteCrawlerPOST, truthyStr, hje]
        | false =>
          cases hue : url.isEmpty with
          | true => simp [websiteCrawlerPOST, truthyStr, hje, hue]
          | false =>
            cases hc1 : crawlWebsiteDirectly fo1 url (parseKeywords kw) now1 <;>
              cases hc2 : crawlWebsiteDirectly fo2 url (parseKeywords kw) now2 <;>
              simp [websiteCrawlerPOST, truthyStr, hje, hue, hc1, hc2,
                updateJobStatus, saveJobData, insertA_insertA]

/-- C8: the HTML-to-text extraction and the keyword-heuristic analysis are
pure and deterministic — on identical inputs they produce identical
outputs, depending on nothing else. -/
theorem crawler_text_analysis_deterministic (h1 h2 c1 c2 : Str) (k1 k2 : List Str)
    (hh : h1 = h2) (hc : c1 = c2) (hk : k1 = k2) :
    extractTextFromHTML h1 = extractTextFromHTML h2 ∧
    extractTitle h1 = extractTitle h2 ∧
    analyzeWebsiteContent c1 k1 = analyzeWebsiteContent c2 k2 := by
  subst hh
  subst hc
  subst hk
  exact ⟨rfl, rfl, rfl⟩

/-- Witness for C8 at concrete inputs. -/
theorem crawler_text_analysis_deterministic_witness :
    (( "<p>Hi.</p>".toList : Str) = ( "<p>Hi.</p>".toList : Str) ∧
     ( "text in".toList : Str) = ( "text in".toList : Str) ∧
     ([ ( "kw".toList) ] : List Str) = [ ( "kw".toList) ]) ∧
    (extractTextFromHTML ( "<p>Hi.</p>".toList) = extractTextFromHTML ( "<p>Hi.</p>".toList) ∧
     extractTitle ( "<p>Hi.</p>".toList) = extractTitle ( "<p>Hi.</p>".toList) ∧
     analyzeWebsiteContent ( "text in".toList) [ ( "kw".toList) ] =
       analyzeWebsiteContent ( "text in".toList) [ ( "kw".toList) ]) :=
  ⟨⟨rfl, rfl, rfl⟩, crawler_text_analysis_deterministic _ _ _ _ _ _ rfl rfl rfl⟩

/-- C9: every non-null `WebsiteData` produced by `crawlWebsiteDirectly`
obeys the fixed size bounds: content at most 5000 characters, at most 8
value propositions, 10 features, 10 benefits and 15 keywords. -/
theorem crawlWebsiteDirectly_result_bounds (fo : FetchOutcome) (url : Str)
    (kws : List Str) (now : Str) (wd : WebsiteData)
    (h : crawlWebsiteDirectly fo url kws now = some wd) :
    wd.content.length ≤ 5000 ∧ wd.valuePropositions.length ≤ 8 ∧
    wd.features.length ≤ 10 ∧ wd.benefits.length ≤ 10 ∧
    wd.keywords.length ≤ 15 := by
  cases fo with
  | throws => simp [crawlWebsiteDirectly] at h
  | notOk s => simp [crawlWebsiteDirectly] at h
  | ok html =>
    simp only [crawlWebsiteDirectly, Option.some.injEq] at h
    subst h
    refine ⟨?_, ?_, ?_, ?_, ?_⟩ <;>
      simp [analyzeWebsiteContent]

/-- Witness for C9 at a concrete fetched page. -/
theorem crawlWebsiteDirectly_result_bounds_witness :
    crawlWebsiteDirectly (.ok ( "<p>Hello.</p>".toList)) ( "u".toList) [] ( "t".toList) =
      some
        ⟨ "u".toList, "Unknown Title".toList, "Hello.".toList, [], [], [], [],
          ⟨ "t".toList, 6, "direct_fetch".toList⟩⟩ ∧
    (( "Hello.".toList : Str).length ≤ 5000 ∧ ([] : List Str).length ≤ 8 ∧
     ([] : List Str).length ≤ 10 ∧ ([] : List Str).length ≤ 10 ∧
     ([] : List Str).length ≤ 15) := by
  have h := crawlWebsiteDirectly_result_bounds (.ok ( "<p>Hello.</p>".toList))
    ( "u".toList) [] ( "t".toList)
    ⟨ "u".toList, "Unknown Title".toList, "Hello.".toList, [], [], [], [],
      ⟨ "t".toList, 6, "direct_fetch".toList⟩⟩ (by decide)
  exact ⟨by decide, h⟩

/-- C10 counterexample: with the target-word list `[" best"]` (note the
leading space) and this content, the single returned sentence does not
contain the target word case-insensitively — trimming removed the space
through which the word matched. -/
theorem extractSentencesWithWords_untrimmed_match_cex :
    extractSentencesWithWords ( " best product you can buy here today yes.".toList)
        [ ( " best".toList) ] =
      [ ( "best product you can buy here today yes".toList) ] ∧
    containsSub (lowerStr ( " best".toList))
      (lowerStr ( "best product you can buy here today yes".toList)) = false :=
  ⟨by decide, by decide⟩

/-- C10 (amended): when no target word starts or ends with whitespace,
every sentence returned by `extractSentencesWithWords` contains one of
the target words case-insensitively, has length strictly between 30 and
200 (the returned sentences are already trimmed), and the returned list
has no duplicates. -/
theorem extractSentencesWithWords_sound (content : Str) (targetWords : List Str)
    (hw : ∀ w ∈ targetWords, goodWordB w = true) :
    (extractSentencesWithWords content targetWords).Nodup ∧
    ∀ s ∈ extractSentencesWithWords content targetWords,
      30 < s.length ∧ s.length < 200 ∧
      ∃ w ∈ targetWords, containsSub (lowerStr w) (lowerStr s) = true := by
  constructor
  · simp only [extractSentencesWithWords, dedupFirst]
    exact nodup_dedupGo _ _
  · intro s hs
    simp only [extractSentencesWithWords, dedupFirst] at hs
    have hs' := (mem_dedupGo _ _ _ hs).1
    obtain ⟨t, htmem, rfl⟩ := List.mem_map.mp hs'
    have hcond := (List.mem_filter.mp htmem).2
    simp only [Bool.and_eq_true, List.any_eq_true, decide_eq_true_eq] at hcond
    obtain ⟨⟨⟨w, hwmem, hcw⟩, h30⟩, h200⟩ := hcond
    refine ⟨h30, h200, w, hwmem, ?_⟩
    rw [containsSub_iff] at hcw ⊢
    rw [← jsTrim_lowerStr]
    exact infix_jsTrim _ _ (goodWordB_head w (hw w hwmem))
      (goodWordB_getLast w (hw w hwmem)) hcw

/-- Witness for the amended C10 at a concrete content and word list. -/
theorem extractSentencesWithWords_sound_witness :
    goodWordB ( "best".toList) = true ∧
    ((extractSentencesWithWords
        ( "the best product you can buy here today yes.".toList)
        [ ( "best".toList) ]).Nodup ∧
     30 < ( "the best product you can buy here today yes".toList : Str).length ∧
     ( "the best product you can buy here today yes".toList : Str).length < 200 ∧
     containsSub (lowerStr ( "best".toList))
       (lowerStr ( "the best product you can buy here today yes".toList)) = true) := by
  have h := extractSentencesWithWords_sound
    ( "the best product you can buy here today yes.".toList)
    [ ( "best".toList) ] (by decide)
  have hm := h.2 ( "the best product you can buy here today yes".toList) (by decide)
  obtain ⟨h30, h200, w, hwm, hcs⟩ := hm
  have hww : w = ( "best".toList) := by simpa using hwm
  subst hww
  exact ⟨by decide, h.1, h30, h200, hcs⟩

/-- Witness for C3 at a concrete failing fetch. -/
theorem websiteCrawler_fetch_error_contained_witness :
    (( "j1".toList : Str) ≠ [] ∧ ( "https://example.com".toList : Str) ≠ [] ∧
      crawlWebsiteDirectly .throws ( "https://example.com".toList)
        (parseKeywords .absent) ( "t".toList) = none) ∧
    (workerStatusOf (websiteCrawlerPOST (Store.mk [] [])
        (.parsed ⟨some ( "j1".toList), some ( "https://example.com".toList), .absent⟩)
        .throws ( "t".toList)).1 = 200 ∧
     lookupA ((websiteCrawlerPOST (Store.mk [] [])
        (.parsed ⟨some ( "j1".toList), some ( "https://example.com".toList), .absent⟩)
        .throws ( "t".toList)).2).data (dataKey ( "j1".toList) websiteSource) =
       some (JobData.errorRecord ( "https://example.com".toList) crawlFailMsg ( "t".toList))) := by
  have h := websiteCrawler_fetch_error_contained (Store.mk [] []) ( "j1".toList)
    ( "https://example.com".toList) .absent ( "t".toList) .throws 0
    (by decide) (by decide) rfl
  exact ⟨⟨by decide, by decide, rfl⟩, h.2.2.1, h.2.2.2.2⟩

/-- Witness for C6 at a concrete body with no `jobId`. -/
theorem websiteCrawler_validation_rejects_witness :
    ((WorkerBody.mk none (some ( "u".toList)) .absent).jobId = none ∨
     (WorkerBody.mk none (some ( "u".toList)) .absent).websiteUrl = none) ∧
    websiteCrawlerPOST (Store.mk [] [])
        (.parsed (WorkerBody.mk none (some ( "u".toList)) .absent)) .throws ( "t".toList) =
      (WorkerResp.missingFields, Store.mk [] []) := by
  have h := websiteCrawler_validation_rejects (Store.mk [] [])
    (WorkerBody.mk none (some ( "u".toList)) .absent) .throws ( "t".toList) (Or.inl rfl)
  exact ⟨Or.inl rfl, h.1⟩

end Persona







